import Mathlib

/-!
Verification of the `az-builder-helper` repository.

The core component is `renderTemplate` (src/utils/templateUtils.ts), which
performs a global regex replacement of `\{\{(\w+)\}\}` on a template string,
substituting each placeholder with the corresponding value from a variable
record, or with the empty string (plus a `console.warn` diagnostic) when the
key is absent.

The embedding models:
  * a JS string as `List Char` (wrapped in `String`);
  * the regex word class `\w` (no unicode flag) as `[A-Za-z0-9_]`;
  * the JS `Record<string, string>` as an association list with first-match
    lookup (`lookupVar`, modelling `vars[key]`);
  * the `console.warn` side channel as the second component of the result:
    `renderTemplate` returns the rendered string together with the ordered
    list of warning messages emitted during the render;
  * the left-to-right, non-overlapping global matching of
    `String.prototype.replace` with the `g` flag as a character-by-character
    scan (`replaceAux`).  The scan carries a fuel argument and returns
    `none` on fuel exhaustion; `replaceAux_tokenize` shows the fuel
    `template.length` always suffices.

`createProject` (src/commands/createProject.ts) is modelled as a function
from a read-only filesystem/environment view to the list of side-effecting
actions it performs, in order; `process.exit` terminates the trace.
-/

set_option autoImplicit false

namespace AzBuilderHelper

/-- The JS regex word character class `\w` (without the unicode flag):
ASCII letters, digits and underscore. -/
def isWordChar (c : Char) : Bool :=
  (decide ('a' ≤ c) && decide (c ≤ 'z')) ||
  (decide ('A' ≤ c) && decide (c ≤ 'Z')) ||
  (decide ('0' ≤ c) && decide (c ≤ '9')) ||
  c == '_'

/-- Longest prefix of word characters and the remainder: the greedy `\w+`
(greediness cannot backtrack usefully here because the character after the
maximal run is never a word character). -/
def takeWordRun : List Char → List Char × List Char
  | [] => ([], [])
  | c :: cs =>
    if isWordChar c then
      let p := takeWordRun cs
      (c :: p.1, p.2)
    else
      ([], c :: cs)

/-- Attempt to match the regex `\{\{(\w+)\}\}` at the start of `l`.
On success, returns the captured identifier characters and the remainder of
the input after the closing braces. -/
def matchPlaceholder (l : List Char) : Option (List Char × List Char) :=
  if l.take 2 = ['{', '{'] then
    let key := (takeWordRun (l.drop 2)).1
    let after := (takeWordRun (l.drop 2)).2
    if key ≠ [] ∧ after.take 2 = ['}', '}'] then some (key, after.drop 2)
    else none
  else none

/-- Model of the JS property read `vars[key]` on a
`Record<string, string>` built from the listed own entries (first match
wins; JS object keys are unique anyway). -/
def lookupVar : List (String × String) → String → Option String
  | [], _ => none
  | (k, v) :: rest, key => if k = key then some v else lookupVar rest key

/-- The text of the `console.warn` diagnostic for a missing placeholder key
(source line: `Warning: No value provided for placeholder ${key}`). -/
def warnMsg (key : String) : String :=
  "Warning: No value provided for placeholder " ++ key

/-- The scan underlying `template.replace(/\{\{(\w+)\}\}/g, cb)`: at each
position, if the placeholder regex matches, consume it and emit the
callback's replacement (the mapped value, or the empty string plus a
warning when the key is absent); otherwise copy one character and move on.
`fuel` bounds the recursion; `none` means fuel ran out (never happens for
fuel ≥ length, proved below). -/
def replaceAux (vars : List (String × String)) : Nat → List Char → Option (List Char × List String)
  | _, [] => some ([], [])
  | 0, _ :: _ => none
  | n + 1, c :: cs =>
    match matchPlaceholder (c :: cs) with
    | some (kd, rest) =>
      match replaceAux vars n rest with
      | none => none
      | some (out, ws) =>
        match lookupVar vars (String.mk kd) with
        | some v => some (v.data ++ out, ws)
        | none => some (out, warnMsg (String.mk kd) :: ws)
    | none =>
      match replaceAux vars n cs with
      | none => none
      | some (out, ws) => some (c :: out, ws)

/-- `renderTemplate`, fallible form: `none` would mean the scan ran out of
fuel.  Totality (the claim theorem below) shows this never happens. -/
def renderTemplateO (template : String) (vars : List (String × String)) :
    Option (String × List String) :=
  match replaceAux vars template.length template.data with
  | some (out, ws) => some (String.mk out, ws)
  | none => none

/-- `renderTemplate` from src/utils/templateUtils.ts: the rendered string
together with the list of warning messages written to `console.warn`, in
emission order. -/
def renderTemplate (template : String) (vars : List (String × String)) :
    String × List String :=
  (renderTemplateO template vars).getD (template, [])

/-- A template decomposes into literal characters and placeholder tokens. -/
inductive Tok where
  | lit (c : Char)
  | ph (key : String)
  deriving DecidableEq

/-- Decomposition of a template into tokens by the same left-to-right,
maximal-munch scan the regex engine performs. -/
def tokenizeAux : Nat → List Char → Option (List Tok)
  | _, [] => some []
  | 0, _ :: _ => none
  | n + 1, c :: cs =>
    match matchPlaceholder (c :: cs) with
    | some (kd, rest) =>
      match tokenizeAux n rest with
      | none => none
      | some ts => some (Tok.ph (String.mk kd) :: ts)
    | none =>
      match tokenizeAux n cs with
      | none => none
      | some ts => some (Tok.lit c :: ts)

/-- The token decomposition of a template. -/
def tokensOf (template : String) : List Tok :=
  (tokenizeAux template.length template.data).getD []

/-- Modelled from the spec: the rendering of one token — a literal character
is passed through unchanged, a placeholder is replaced by the mapped value,
or by the empty string when its key is absent from the mapping. -/
def renderTok (vars : List (String × String)) : Tok → String
  | Tok.lit c => String.mk [c]
  | Tok.ph k => (lookupVar vars k).getD ""

/-- Modelled from the spec: the output string is the concatenation of the
independent renderings of the template's tokens — every substring matching
`\x7b\x7bidentifier\x7d\x7d` replaced according to the mapping lookup, all
other text passed through unchanged. -/
def specRender (template : String) (vars : List (String × String)) : String :=
  String.mk (((tokensOf template).map (fun tk => (renderTok vars tk).data)).flatten)

/-- The character-level rendering of one token. -/
def renderTokChars (vars : List (String × String)) (tk : Tok) : List Char :=
  (renderTok vars tk).data

/-- The warning a token contributes: a placeholder whose key is absent from
the mapping yields one diagnostic naming the key. -/
def missingOf (vars : List (String × String)) : Tok → Option String
  | Tok.lit _ => none
  | Tok.ph k =>
    match lookupVar vars k with
    | some _ => none
    | none => some (warnMsg k)

/-- The keys of the placeholder tokens, in occurrence order. -/
def keysOf (toks : List Tok) : List String :=
  toks.filterMap (fun tk =>
    match tk with
    | Tok.lit _ => none
    | Tok.ph k => some k)

/-- The identifiers that occur as placeholders in a template, in occurrence
order (with multiplicity). -/
def templateKeys (template : String) : List String :=
  keysOf (tokensOf template)

/-- Whether some position of `l` starts a placeholder match. -/
def hasPlaceholder : List Char → Bool
  | [] => false
  | c :: cs => (matchPlaceholder (c :: cs)).isSome || hasPlaceholder cs

/-! ### Lemmas about the word-run scanner and the placeholder matcher -/

theorem takeWordRun_append (l : List Char) :
    (takeWordRun l).1 ++ (takeWordRun l).2 = l := by
  induction l with
  | nil => rfl
  | cons c cs ih =>
    by_cases h : isWordChar c = true
    · simp [takeWordRun, h, ih]
    · simp [takeWordRun, h]

theorem takeWordRun_word (l : List Char) :
    ∀ c ∈ (takeWordRun l).1, isWordChar c = true := by
  induction l with
  | nil => simp [takeWordRun]
  | cons c cs ih =>
    by_cases h : isWordChar c = true
    · intro x hx
      simp [takeWordRun, h] at hx
      rcases hx with hx | hx
      · exact hx ▸ h
      · exact ih x hx
    · simp [takeWordRun, h]

theorem takeWordRun_of_word (kd rest : List Char)
    (hw : ∀ c ∈ kd, isWordChar c = true) :
    takeWordRun (kd ++ '}' :: rest) = (kd, '}' :: rest) := by
  induction kd with
  | nil =>
    have hb : isWordChar '}' = false := by decide
    simp [takeWordRun, hb]
  | cons c cs ih =>
    have hc : isWordChar c = true := hw c (by simp)
    have ih' := ih (fun x hx => hw x (by simp [hx]))
    simp [takeWordRun, hc, ih']

/-- A substring is recognized as a placeholder exactly when it has the shape
`\x7b\x7b` + nonempty word-character identifier + `\x7d\x7d`. -/
theorem matchPlaceholder_some_iff (l kd rest : List Char) :
    matchPlaceholder l = some (kd, rest) ↔
      kd ≠ [] ∧ (∀ c ∈ kd, isWordChar c = true) ∧
        l = '{' :: '{' :: (kd ++ '}' :: '}' :: rest) := by
  constructor
  · intro h
    simp only [matchPlaceholder] at h
    split_ifs at h with h1 h2
    · rw [Option.some.injEq, Prod.mk.injEq] at h
      obtain ⟨hkd, hrest⟩ := h
      obtain ⟨hne, hafter⟩ := h2
      refine ⟨hkd ▸ hne, hkd ▸ takeWordRun_word (l.drop 2), ?_⟩
      have hsplit : l.take 2 ++ l.drop 2 = l := List.take_append_drop 2 l
      have hdrop : l.drop 2 = kd ++ ('}' :: '}' :: rest) := by
        have h3 : (takeWordRun (l.drop 2)).2.take 2 ++ (takeWordRun (l.drop 2)).2.drop 2 =
            (takeWordRun (l.drop 2)).2 := List.take_append_drop 2 _
        rw [hafter, hrest] at h3
        rw [← takeWordRun_append (l.drop 2), hkd, ← h3]
        rfl
      rw [← hsplit, h1, hdrop]
      rfl
  · rintro ⟨hne, hw, rfl⟩
    have hdrop : ('{' :: '{' :: (kd ++ '}' :: '}' :: rest)).drop 2 =
        kd ++ '}' :: '}' :: rest := rfl
    simp only [matchPlaceholder, hdrop, List.take, takeWordRun_of_word kd ('}' :: rest) hw]
    simp [hne]

theorem matchPlaceholder_length {l kd rest : List Char}
    (h : matchPlaceholder l = some (kd, rest)) : rest.length < l.length := by
  obtain ⟨-, -, h3⟩ := (matchPlaceholder_some_iff l kd rest).1 h
  subst h3
  simp
  omega

/-! ### The scan agrees with the token decomposition -/

theorem replaceAux_tokenize (vars : List (String × String)) :
    ∀ n l, l.length ≤ n →
      ∃ toks, tokenizeAux n l = some toks ∧
        replaceAux vars n l =
          some ((toks.map (renderTokChars vars)).flatten,
            toks.filterMap (missingOf vars)) := by
  intro n
  induction n with
  | zero =>
    intro l hl
    have hnil : l = [] := List.eq_nil_of_length_eq_zero (Nat.le_zero.1 hl)
    subst hnil
    exact ⟨[], rfl, rfl⟩
  | succ n ih =>
    intro l hl
    match l with
    | [] => exact ⟨[], rfl, rfl⟩
    | c :: cs =>
      cases hm : matchPlaceholder (c :: cs) with
      | none =>
        have hcs : cs.length ≤ n := by
          simp only [List.length_cons] at hl
          omega
        obtain ⟨toks, htok, hrep⟩ := ih cs hcs
        refine ⟨Tok.lit c :: toks, ?_, ?_⟩
        · simp [tokenizeAux, hm, htok]
        · simp [replaceAux, hm, hrep, renderTokChars, renderTok, missingOf]
      | some p =>
        obtain ⟨kd, rest⟩ := p
        have hrest : rest.length ≤ n := by
          have hlt := matchPlaceholder_length hm
          simp only [List.length_cons] at hlt hl
          omega
        obtain ⟨toks, htok, hrep⟩ := ih rest hrest
        refine ⟨Tok.ph (String.mk kd) :: toks, ?_, ?_⟩
        · simp [tokenizeAux, hm, htok]
        · cases hv : lookupVar vars (String.mk kd) with
          | some v =>
            simp [replaceAux, hm, hrep, hv, renderTokChars, renderTok, missingOf]
          | none =>
            simp [replaceAux, hm, hrep, hv, renderTokChars, renderTok, missingOf]

theorem tokenizeAux_isSome (t : String) :
    tokenizeAux t.length t.data = some (tokensOf t) := by
  obtain ⟨toks, htok, -⟩ :=
    replaceAux_tokenize [] t.length t.data (le_of_eq rfl)
  rw [htok, tokensOf, htok]
  rfl

theorem renderTemplate_eq (t : String) (vars : List (String × String)) :
    renderTemplate t vars =
      (String.mk (((tokensOf t).map (renderTokChars vars)).flatten),
        (tokensOf t).filterMap (missingOf vars)) := by
  obtain ⟨toks, htok, hrep⟩ :=
    replaceAux_tokenize vars t.length t.data (le_of_eq rfl)
  have htoks : tokensOf t = toks := by rw [tokensOf, htok]; rfl
  rw [renderTemplate, renderTemplateO, hrep, htoks]
  rfl

/-! ### Further helper lemmas -/

theorem tokensOf_single (k : String) (h1 : k.data ≠ [])
    (h2 : ∀ c ∈ k.data, isWordChar c = true) :
    tokensOf ("\x7b\x7b" ++ k ++ "\x7d\x7d") = [Tok.ph k] := by
  have hm : matchPlaceholder ('{' :: '{' :: (k.data ++ '}' :: '}' :: ([] : List Char))) =
      some (k.data, []) :=
    (matchPlaceholder_some_iff _ _ _).2 ⟨h1, h2, rfl⟩
  have hd : ("\x7b\x7b" ++ k ++ "\x7d\x7d").data =
      '{' :: '{' :: (k.data ++ '}' :: '}' :: ([] : List Char)) := rfl
  have hlen : ("\x7b\x7b" ++ k ++ "\x7d\x7d").length = k.data.length + 3 + 1 := by
    show ("\x7b\x7b" ++ k ++ "\x7d\x7d").data.length = _
    rw [hd]
    simp
  rw [tokensOf, hlen, hd]
  simp [tokenizeAux, hm]

theorem replaceAux_id (vars : List (String × String)) :
    ∀ n l, l.length ≤ n → hasPlaceholder l = false →
      replaceAux vars n l = some (l, []) := by
  intro n
  induction n with
  | zero =>
    intro l hl _
    have hnil : l = [] := List.eq_nil_of_length_eq_zero (Nat.le_zero.1 hl)
    subst hnil
    rfl
  | succ n ih =>
    intro l hl hp
    match l with
    | [] => rfl
    | c :: cs =>
      rw [hasPlaceholder] at hp
      have h1 : matchPlaceholder (c :: cs) = none := by
        cases hmm : matchPlaceholder (c :: cs) with
        | none => rfl
        | some p => rw [hmm] at hp; simp at hp
      have h2 : hasPlaceholder cs = false := by
        rw [h1] at hp
        simpa using hp
      have hcs : cs.length ≤ n := by
        simp only [List.length_cons] at hl
        omega
      simp [replaceAux, h1, ih cs hcs h2]

theorem renderTemplate_id (t : String) (vars : List (String × String))
    (h : hasPlaceholder t.data = false) : renderTemplate t vars = (t, []) := by
  rw [renderTemplate, renderTemplateO,
    replaceAux_id vars t.length t.data (le_of_eq rfl) h]
  rfl

theorem tokens_congr (m1 m2 : List (String × String)) (toks : List Tok)
    (h : ∀ k ∈ keysOf toks, lookupVar m1 k = lookupVar m2 k) :
    toks.map (renderTokChars m1) = toks.map (renderTokChars m2) ∧
      toks.filterMap (missingOf m1) = toks.filterMap (missingOf m2) := by
  induction toks with
  | nil => exact ⟨rfl, rfl⟩
  | cons tk ts ih =>
    cases tk with
    | lit c =>
      have h' : ∀ k ∈ keysOf ts, lookupVar m1 k = lookupVar m2 k := by
        intro k hk
        exact h k (by simpa [keysOf] using hk)
      obtain ⟨e1, e2⟩ := ih h'
      constructor <;> simp [renderTokChars, renderTok, missingOf, e1, e2]
    | ph k =>
      have hk : lookupVar m1 k = lookupVar m2 k := h k (by simp [keysOf])
      have h' : ∀ k' ∈ keysOf ts, lookupVar m1 k' = lookupVar m2 k' := by
        intro k' hk'
        refine h k' ?_
        simp only [keysOf, List.filterMap_cons] at hk' ⊢
        exact List.mem_cons_of_mem _ hk'
      obtain ⟨e1, e2⟩ := ih h'
      refine ⟨by simp [renderTokChars, renderTok, e1, hk], ?_⟩
      cases hv : lookupVar m2 k with
      | some v => simp [List.filterMap_cons, missingOf, hk, hv, e2]
      | none => simp [List.filterMap_cons, missingOf, hk, hv, e2]

theorem renderTemplate_congr (t : String) (m1 m2 : List (String × String))
    (h : ∀ k ∈ templateKeys t, lookupVar m1 k = lookupVar m2 k) :
    renderTemplate t m1 = renderTemplate t m2 := by
  obtain ⟨e1, e2⟩ := tokens_congr m1 m2 (tokensOf t) h
  rw [renderTemplate_eq t m1, renderTemplate_eq t m2, e1, e2]

theorem missing_filter (m : List (String × String)) (toks : List Tok) :
    toks.filterMap (missingOf m) =
      ((keysOf toks).filter (fun k => (lookupVar m k).isNone)).map warnMsg := by
  induction toks with
  | nil => rfl
  | cons tk ts ih =>
    cases tk with
    | lit c => simpa [keysOf, missingOf] using ih
    | ph k =>
      cases hv : lookupVar m k with
      | some v => simp [keysOf, missingOf, hv, ih]
      | none => simp [keysOf, missingOf, hv, ih]

/-! ### Claim theorems for the template renderer -/

/-- C1: for every template string and variable mapping, `renderTemplate`
returns exactly the string described by the spec — every placeholder
substring replaced independently according to the mapping lookup, all text
outside placeholders passed through unchanged (`specRender` is the
spec-side description as a map over the token decomposition). -/
theorem renderTemplate_meets_spec (t : String) (vars : List (String × String)) :
    (renderTemplate t vars).1 = specRender t vars := by
  rw [renderTemplate_eq, specRender]
  rfl

/-- C2: a placeholder whose identifier is absent from the mapping is
replaced by the empty string and produces exactly one warning diagnostic
naming that identifier; the render completes normally. -/
theorem renderTemplate_missing_key (k : String) (vars : List (String × String))
    (h1 : k.data ≠ []) (h2 : ∀ c ∈ k.data, isWordChar c = true)
    (h3 : lookupVar vars k = none) :
    renderTemplate ("\x7b\x7b" ++ k ++ "\x7d\x7d") vars = ("", [warnMsg k]) := by
  rw [renderTemplate_eq, tokensOf_single k h1 h2]
  simp [renderTokChars, renderTok, missingOf, h3]

theorem renderTemplate_missing_key_witness :
    ("name" : String).data ≠ [] ∧
      (∀ c ∈ ("name" : String).data, isWordChar c = true) ∧
      lookupVar [] "name" = none ∧
      renderTemplate ("\x7b\x7b" ++ "name" ++ "\x7d\x7d") [] = ("", [warnMsg "name"]) :=
  ⟨by decide, by decide, rfl,
    renderTemplate_missing_key "name" [] (by decide) (by decide) rfl⟩

/-- C3: a substring is recognized and substituted as a placeholder exactly
when it has the form of two opening braces, a nonempty run of word
characters, and two closing braces; brace sequences not of that form (a
lone opening brace, empty identifier, identifiers with a space or hyphen)
pass through the render unchanged. -/
theorem placeholder_recognition (l kd rest : List Char) :
    (matchPlaceholder l = some (kd, rest) ↔
      kd ≠ [] ∧ (∀ c ∈ kd, isWordChar c = true) ∧
        l = '{' :: '{' :: (kd ++ '}' :: '}' :: rest)) ∧
    (∀ vars : List (String × String),
      renderTemplate "\x7b" vars = ("\x7b", []) ∧
      renderTemplate "{{}}" vars = ("{{}}", []) ∧
      renderTemplate "{{a b}}" vars = ("{{a b}}", []) ∧
      renderTemplate "{{a-b}}" vars = ("{{a-b}}", [])) := by
  refine ⟨matchPlaceholder_some_iff l kd rest, fun vars => ⟨?_, ?_, ?_, ?_⟩⟩ <;>
    exact renderTemplate_id _ _ (by decide)

/-- C4: a placeholder whose identifier is present in the mapping renders to
exactly the mapped value, with no warning and no recursive substitution of
the replacement text (witness: the value itself contains placeholder
syntax and is still returned verbatim). -/
theorem renderTemplate_present_key (k v : String) (vars : List (String × String))
    (h1 : k.data ≠ []) (h2 : ∀ c ∈ k.data, isWordChar c = true)
    (h3 : lookupVar vars k = some v) :
    renderTemplate ("\x7b\x7b" ++ k ++ "\x7d\x7d") vars = (v, []) := by
  rw [renderTemplate_eq, tokensOf_single k h1 h2]
  simp [renderTokChars, renderTok, missingOf, h3]

theorem renderTemplate_present_key_witness :
    ("a" : String).data ≠ [] ∧
      (∀ c ∈ ("a" : String).data, isWordChar c = true) ∧
      lookupVar [("a", "{{b}}"), ("b", "Z")] "a" = some "{{b}}" ∧
      renderTemplate ("\x7b\x7b" ++ "a" ++ "\x7d\x7d") [("a", "{{b}}"), ("b", "Z")] =
        ("{{b}}", []) :=
  ⟨by decide, by decide, rfl,
    renderTemplate_present_key "a" "{{b}}" [("a", "{{b}}"), ("b", "Z")]
      (by decide) (by decide) rfl⟩

/-- C5: a template containing no substring that matches the placeholder
pattern renders to itself — with any variable mapping — and emits no
diagnostic. -/
theorem renderTemplate_identity_on_placeholder_free (t : String)
    (vars : List (String × String)) (h : hasPlaceholder t.data = false) :
    renderTemplate t vars = (t, []) :=
  renderTemplate_id t vars h

theorem renderTemplate_identity_on_placeholder_free_witness :
    hasPlaceholder ("hello {world}" : String).data = false ∧
      renderTemplate "hello {world}" [("world", "X")] = ("hello {world}", []) :=
  ⟨by decide,
    renderTemplate_identity_on_placeholder_free "hello {world}" [("world", "X")]
      (by decide)⟩

/-- C6: the output depends on the mapping only through the keys that occur
as placeholders in the template; mappings that agree on those keys (extra
never-referenced keys, keys in a different order) give identical output and
identical diagnostics. -/
theorem renderTemplate_unused_keys_irrelevant (t : String)
    (m1 m2 : List (String × String))
    (h : ∀ k ∈ templateKeys t, lookupVar m1 k = lookupVar m2 k) :
    renderTemplate t m1 = renderTemplate t m2 :=
  renderTemplate_congr t m1 m2 h

theorem renderTemplate_unused_keys_irrelevant_witness :
    (∀ k ∈ templateKeys "{{a}}",
        lookupVar [("a", "1")] k = lookupVar [("b", "9"), ("a", "1")] k) ∧
      renderTemplate "{{a}}" [("a", "1")] =
        renderTemplate "{{a}}" [("b", "9"), ("a", "1")] :=
  ⟨by decide,
    renderTemplate_unused_keys_irrelevant "{{a}}" [("a", "1")]
      [("b", "9"), ("a", "1")] (by decide)⟩

/-- C7: the render is total — for every template and mapping the fallible
form of the scan succeeds (the fuel `template.length` always suffices), so
`renderTemplate` always returns a result and never fails. -/
theorem renderTemplate_total (t : String) (vars : List (String × String)) :
    renderTemplateO t vars = some (renderTemplate t vars) := by
  obtain ⟨toks, htok, hrep⟩ :=
    replaceAux_tokenize vars t.length t.data (le_of_eq rfl)
  have h : renderTemplateO t vars =
      some (String.mk ((toks.map (renderTokChars vars)).flatten),
        toks.filterMap (missingOf vars)) := by
    rw [renderTemplateO, hrep]
  rw [renderTemplate, h]
  rfl

/-- C8: the render is deterministic and extensional — two invocations on
the same template and extensionally equal mappings (equal lookup results
for every key) return equal outputs and equal diagnostics. -/
theorem renderTemplate_deterministic (t : String)
    (m1 m2 : List (String × String))
    (h : ∀ k, lookupVar m1 k = lookupVar m2 k) :
    renderTemplate t m1 = renderTemplate t m2 :=
  renderTemplate_congr t m1 m2 (fun k _ => h k)

theorem renderTemplate_deterministic_witness :
    (∀ k, lookupVar [("a", "1")] k = lookupVar [("a", "1"), ("a", "2")] k) ∧
      renderTemplate "{{a}}{{b}}" [("a", "1")] =
        renderTemplate "{{a}}{{b}}" [("a", "1"), ("a", "2")] :=
  ⟨by
    intro k
    simp only [lookupVar]
    by_cases h : "a" = k <;> simp [h],
    renderTemplate_deterministic "{{a}}{{b}}" [("a", "1")]
      [("a", "1"), ("a", "2")]
      (by
        intro k
        simp only [lookupVar]
        by_cases h : "a" = k <;> simp [h])⟩

/-- C9: one warning per placeholder occurrence whose key is absent — the
diagnostic list is exactly the in-order list of missing-key occurrences,
each mapped to its warning message (so a missing identifier repeated n
times yields n warnings). -/
theorem renderTemplate_warning_per_occurrence (t : String)
    (vars : List (String × String)) :
    (renderTemplate t vars).2 =
      ((templateKeys t).filter (fun k => (lookupVar vars k).isNone)).map warnMsg := by
  rw [renderTemplate_eq, templateKeys, ← missing_filter]

/-! ### Model of `createProject` (src/commands/createProject.ts)

The command is modelled as a function from a read-only view of the
environment (which paths exist, file contents, the directory listing of
`templates/pulumi`) to the ordered list of side-effecting actions it
performs.  `process.exit` terminates the trace: nothing after it is
emitted.  `chalk` colouring is elided (messages are modelled unstyled),
and the asynchronous `close`-event callbacks of the spawned `git`/`npm`
processes (which only log) are outside the trace, which ends where the
synchronous body of the function ends. -/

/-- A side-effecting action of the scaffolding command. -/
inductive FsAction where
  /-- `fs.mkdirSync(path, \x7b recursive: true \x7d)` -/
  | mkdirRec (path : String)
  /-- `fs.writeFileSync(path, content)` -/
  | writeFile (path : String) (content : String)
  /-- `copyDirectory(src, dest)` from fileUtils: recursive directory copy -/
  | copyDir (src : String) (dest : String)
  /-- `spawn(cmd, args, \x7b cwd \x7d)` -/
  | spawnProc (cmd : String) (args : List String) (cwd : String)
  /-- `console.log(msg)` -/
  | consoleLog (msg : String)
  /-- `console.warn(msg)` -/
  | consoleWarn (msg : String)
  /-- `console.error(msg)` -/
  | consoleError (msg : String)
  /-- `process.exit(code)` -/
  | processExit (code : Nat)
  deriving DecidableEq

/-- Read-only view of the environment `createProject` consults:
`fs.existsSync`, `fs.readFileSync`, the `readdirSync` listing of
`templates/pulumi` (entry name and its `isFile()` flag), and the
module directory `__dirname`. -/
structure FsEnv where
  existsPath : String → Bool
  readFile : String → String
  pulumiTemplateEntries : List (String × Bool)
  moduleDir : String

/-- Model of Node `path.join` for the joins this command performs. -/
def pathJoin (a b : String) : String := a ++ "/" ++ b

/-- `templatesDir = path.join(__dirname, '../templates')`. -/
def templatesDirOf (env : FsEnv) : String := pathJoin env.moduleDir "../templates"

/-- Does `p` start with `pat`?  (Model of the prefix test used below.) -/
def listStartsWith : List Char → List Char → Bool
  | [], _ => true
  | _ :: _, [] => false
  | p :: ps, c :: cs => (p == c) && listStartsWith ps cs

/-- JS `s.replace('.tpl', '')` with a plain-string pattern replaces only the
first occurrence: drop the first occurrence of `pat` from the list. -/
def removeFirstOcc (pat : List Char) : List Char → List Char
  | [] => []
  | c :: cs =>
    if listStartsWith pat (c :: cs) then (c :: cs).drop pat.length
    else c :: removeFirstOcc pat cs

/-- `templateFile.replace('.tpl', '')`. -/
def outputFileNameOf (templateFile : String) : String :=
  String.mk (removeFirstOcc (".tpl").data templateFile.data)

/-- `createProjectDirectory`. -/
def createProjectDirectory (projectDir : String) : List FsAction :=
  [FsAction.mkdirRec projectDir,
   FsAction.consoleLog ("\nCreated project directory: " ++ projectDir)]

/-- `initializeGitRepository` (the `close`-event log is asynchronous and
outside the modelled trace). -/
def initializeGitRepository (projectDir : String) : List FsAction :=
  [FsAction.spawnProc "git" ["init"] projectDir]

/-- `renderProjectTemplates`: render every `.tpl` file of `templates/pulumi`
into the project directory with `\x7b projectName \x7d` as the variable
record.  Returns the action trace and whether execution continues (`false`
when no template files were found: the source calls `process.exit(1)`).
The warnings the renderer prints are part of the trace. -/
def renderProjectTemplates (env : FsEnv) (templatesDir projectDir projectName : String) :
    List FsAction × Bool :=
  let pulumiTemplatesPath := pathJoin templatesDir "pulumi"
  let pulumiTemplateFiles :=
    (env.pulumiTemplateEntries.filter
      (fun e => e.2 && e.1.endsWith ".tpl")).map (fun e => e.1)
  if pulumiTemplateFiles.isEmpty then
    ([FsAction.consoleError ("\nError: No template files found in " ++ templatesDir ++ ".\n"),
      FsAction.consoleError "Please ensure the templates directory contains .tpl files.",
      FsAction.processExit 1], false)
  else
    (pulumiTemplateFiles.flatMap (fun templateFile =>
      let rendered :=
        renderTemplate (env.readFile (pathJoin pulumiTemplatesPath templateFile))
          [("projectName", projectName)]
      rendered.2.map FsAction.consoleWarn ++
        [FsAction.writeFile (pathJoin projectDir (outputFileNameOf templateFile))
          rendered.1]), true)

/-- `copyExamplesDirectory`. -/
def copyExamplesDirectory (env : FsEnv) (projectDir : String) : List FsAction :=
  let examplesSrc := pathJoin env.moduleDir "../examples"
  let examplesDest := pathJoin projectDir "examples"
  if env.existsPath examplesSrc then
    [FsAction.copyDir examplesSrc examplesDest,
     FsAction.consoleLog "\nCopied resource examples to project.\n"]
  else
    [FsAction.consoleWarn "\nNo examples directory found to copy.\n"]

/-- `createGitIgnore`. -/
def createGitIgnore (env : FsEnv) (templatesDir projectDir : String) : List FsAction :=
  let gitignoreTemplatePath := pathJoin templatesDir ".gitignore.tpl"
  let gitignoreDestPath := pathJoin projectDir ".gitignore"
  if env.existsPath gitignoreTemplatePath then
    [FsAction.writeFile gitignoreDestPath (env.readFile gitignoreTemplatePath)]
  else
    [FsAction.writeFile gitignoreDestPath "node_modules/\ndist/\n"]

/-- `createNpmRcFile`. -/
def createNpmRcFile (env : FsEnv) (projectDir : String) : List FsAction :=
  let npmRcTemplatePath := pathJoin (templatesDirOf env) "pipelines/.npmrc.tpl"
  let npmRcPath := pathJoin projectDir ".npmrc"
  if env.existsPath npmRcTemplatePath then
    [FsAction.writeFile npmRcPath (env.readFile npmRcTemplatePath)]
  else
    [FsAction.consoleError ("\nError: .npmrc template not found at " ++ npmRcTemplatePath)]

/-- `generateAzurePipelineYaml`. -/
def generateAzurePipelineYaml (env : FsEnv) (projectDir : String) : List FsAction :=
  let azurePipelineTemplatePath :=
    pathJoin (templatesDirOf env) "pipelines/azure-pipelines.yml.tpl"
  let azurePipelineYamlPath := pathJoin projectDir "azure-pipelines.yml"
  if env.existsPath azurePipelineTemplatePath then
    [FsAction.writeFile azurePipelineYamlPath (env.readFile azurePipelineTemplatePath)]
  else
    [FsAction.consoleError
      ("\nError: Azure Pipeline template not found at " ++ azurePipelineTemplatePath)]

/-- The `JSON.stringify(defaultPackageJson, null, 2)` content. -/
def defaultPackageJsonContent (projectName : String) : String :=
  "\x7b\n  \"name\": \"" ++ projectName ++
    "\",\n  \"version\": \"1.0.0\",\n  \"description\": \"Pulumi project created with Azure Builder Helper\",\n  \"main\": \"index.js\",\n  \"scripts\": \x7b\n    \"start\": \"node index.js\"\n  \x7d,\n  \"dependencies\": \x7b\n    \"lodash\": \"^4.17.21\"\n  \x7d\n\x7d"

/-- `createDefaultPackageJson`. -/
def createDefaultPackageJson (env : FsEnv) (projectDir projectName : String) :
    List FsAction :=
  let packageJsonPath := pathJoin projectDir "package.json"
  if env.existsPath packageJsonPath then []
  else [FsAction.writeFile packageJsonPath (defaultPackageJsonContent projectName)]

/-- `installNpmDependencies` (the summary printed in the `close`-event
callback depends on the child process's exit status and is outside the
modelled synchronous trace). -/
def installNpmDependencies (projectDir : String) : List FsAction :=
  [FsAction.consoleLog "Installing npm dependencies...",
   FsAction.spawnProc "npm" ["install"] projectDir]

/-- `createProject(projectName)`: if the project directory already exists,
report the error and exit with code 1; otherwise run the scaffolding steps
in source order. -/
def createProject (env : FsEnv) (cwd projectName : String) : List FsAction :=
  let projectDir := pathJoin cwd projectName
  if env.existsPath projectDir then
    [FsAction.consoleError
      ("Error: Project directory \"" ++ projectName ++ "\" already exists."),
     FsAction.processExit 1]
  else
    let templatesDir := templatesDirOf env
    let pre := createProjectDirectory projectDir ++ initializeGitRepository projectDir
    let tpl := renderProjectTemplates env templatesDir projectDir projectName
    if tpl.2 then
      pre ++ tpl.1 ++
        copyExamplesDirectory env projectDir ++
        createGitIgnore env templatesDir projectDir ++
        createNpmRcFile env projectDir ++
        generateAzurePipelineYaml env projectDir ++
        createDefaultPackageJson env projectDir projectName ++
        installNpmDependencies projectDir
    else pre ++ tpl.1

/-- Does the action mutate the filesystem? -/
def isMutation : FsAction → Bool
  | FsAction.mkdirRec _ => true
  | FsAction.writeFile _ _ => true
  | FsAction.copyDir _ _ => true
  | _ => false

/-- Does the action spawn an external process? -/
def isSpawn : FsAction → Bool
  | FsAction.spawnProc _ _ _ => true
  | _ => false

/-- C10: when the target project directory already exists, `createProject`
emits only the error message and `process.exit(1)` — it performs no
filesystem mutation and spawns no external process before terminating. -/
theorem createProject_existing_dir_aborts (env : FsEnv) (cwd projectName : String)
    (h : env.existsPath (pathJoin cwd projectName) = true) :
    createProject env cwd projectName =
      [FsAction.consoleError
        ("Error: Project directory \"" ++ projectName ++ "\" already exists."),
       FsAction.processExit 1] ∧
      ∀ a ∈ createProject env cwd projectName,
        isMutation a = false ∧ isSpawn a = false := by
  have htrace : createProject env cwd projectName =
      [FsAction.consoleError
        ("Error: Project directory \"" ++ projectName ++ "\" already exists."),
       FsAction.processExit 1] := by
    rw [createProject]
    simp [h]
  refine ⟨htrace, ?_⟩
  intro a ha
  rw [htrace] at ha
  simp only [List.mem_cons, List.not_mem_nil, or_false] at ha
  rcases ha with ha | ha <;> subst ha <;> exact ⟨rfl, rfl⟩

theorem createProject_existing_dir_aborts_witness :
    (FsEnv.mk (fun _ => true) (fun _ => "") [] "/app/dist/commands").existsPath
        (pathJoin "/home/user" "MyProject") = true ∧
      (createProject (FsEnv.mk (fun _ => true) (fun _ => "") [] "/app/dist/commands")
          "/home/user" "MyProject" =
        [FsAction.consoleError
          ("Error: Project directory \"" ++ "MyProject" ++ "\" already exists."),
         FsAction.processExit 1] ∧
        ∀ a ∈ createProject (FsEnv.mk (fun _ => true) (fun _ => "") []
            "/app/dist/commands") "/home/user" "MyProject",
          isMutation a = false ∧ isSpawn a = false) :=
  ⟨rfl,
    createProject_existing_dir_aborts
      (FsEnv.mk (fun _ => true) (fun _ => "") [] "/app/dist/commands")
      "/home/user" "MyProject" rfl⟩

end AzBuilderHelper
